import Mathlib

/-!
Verification of the ai-reception ingestion/OCR/review pipeline.

The OCR worker-pool definitions are shallow embeddings of
`_extract_text_from_pdf` as given in `PARALLEL_PDF_PROCESSING.md`; the
review-queue state machine and ingestion orchestrator live in the backend
(`api/server.py`), which is not part of this source tree, so those are
modelled from the specification (each such definition says so in its doc
comment).  The TypeScript API clients (`reviewApi`, `auth`) and the upload
form are embedded from the sources under `src/` and `web/src/`.
-/

/-! ## OCR worker pool (`_extract_text_from_pdf`) -/

/-- One iteration of the `as_completed` collection loop in
`_extract_text_from_pdf`: `texts[idx] = future.result()`, where the future
registered at `idx` ran `extract_text_from_image` on page `idx`. -/
def collectStep {α : Type} (ocr : α → String) (pages : List α)
    (texts : List String) (idx : Nat) : List String :=
  texts.set idx (((pages.get? idx).map ocr).getD "")

/-- The result-collection phase of `_extract_text_from_pdf`: `texts` is
pre-sized to `len(images)` with empty strings (`texts = [""] * len(images)`)
and each completed future writes its page's text at the page's original
index.  `completionOrder` records the order in which the worker futures
complete: correctness may not depend on it. -/
def collectTexts {α : Type} (ocr : α → String) (pages : List α)
    (completionOrder : List Nat) : List String :=
  completionOrder.foldl (collectStep ocr pages) (List.replicate pages.length "")

theorem collectStep_length {α : Type} (ocr : α → String) (pages : List α)
    (texts : List String) (idx : Nat) :
    (collectStep ocr pages texts idx).length = texts.length := by
  simp [collectStep]

theorem foldl_collectStep_length {α : Type} (ocr : α → String) (pages : List α) :
    ∀ (order : List Nat) (texts : List String),
      (order.foldl (collectStep ocr pages) texts).length = texts.length := by
  intro order
  induction order with
  | nil => intro texts; rfl
  | cons j rest ih =>
      intro texts
      simp only [List.foldl_cons]
      rw [ih, collectStep_length]

theorem foldl_collectStep_not_mem {α : Type} (ocr : α → String) (pages : List α)
    (i : Nat) :
    ∀ (order : List Nat) (texts : List String), i ∉ order →
      (order.foldl (collectStep ocr pages) texts).get? i = texts.get? i := by
  intro order
  induction order with
  | nil => intro texts _; rfl
  | cons j rest ih =>
      intro texts hmem
      have hij : i ≠ j := fun h => hmem (h ▸ List.mem_cons_self j rest)
      have hrest : i ∉ rest := fun h => hmem (List.mem_cons_of_mem j h)
      simp only [List.foldl_cons]
      rw [ih _ hrest, collectStep, List.get?_set_ne _ _ (fun h => hij h.symm)]

theorem foldl_collectStep_mem {α : Type} (ocr : α → String) (pages : List α)
    (i : Nat) (hi : i < pages.length) :
    ∀ (order : List Nat) (texts : List String), texts.length = pages.length →
      i ∈ order →
      (order.foldl (collectStep ocr pages) texts).get? i =
        (pages.get? i).map ocr := by
  intro order
  induction order with
  | nil => intro texts _ h; exact absurd h (List.not_mem_nil i)
  | cons j rest ih =>
      intro texts hlen hmem
      simp only [List.foldl_cons]
      by_cases hrest : i ∈ rest
      · exact ih _ (by rw [collectStep_length, hlen]) hrest
      · have hij : i = j := by
          rcases List.mem_cons.mp hmem with h | h
          · exact h
          · exact absurd h hrest
        subst hij
        rw [foldl_collectStep_not_mem ocr pages i rest _ hrest]
        have hlt : i < texts.length := by rw [hlen]; exact hi
        have hp : pages.get? i = some (pages.get ⟨i, hi⟩) := List.get?_eq_get hi
        rw [collectStep, List.get?_set_eq_of_lt _ hlt, hp]
        rfl

/-- Pointwise description of the collected sequence: once every page index
has completed, entry `i` holds the OCR output of page `i`. -/
theorem collectTexts_get {α : Type} (ocr : α → String) (pages : List α)
    (order : List Nat) (hperm : order.Perm (List.range pages.length))
    (i : Nat) (hi : i < pages.length) :
    (collectTexts ocr pages order).get? i = some (ocr (pages.get ⟨i, hi⟩)) := by
  have hmem : i ∈ order := hperm.mem_iff.mpr (List.mem_range.mpr hi)
  have h := foldl_collectStep_mem ocr pages i hi order
    (List.replicate pages.length "") (List.length_replicate _ _) hmem
  rw [collectTexts, h, List.get?_eq_get hi]
  rfl

/-- C1: for every N-page document the collected output sequence has length
N and position `i` holds the OCR result of input page `i`, for any
completion order of the worker futures (any permutation of the page
indices). -/
theorem c1_ocr_order_preservation {α : Type} (ocr : α → String) (pages : List α)
    (order : List Nat) (hperm : order.Perm (List.range pages.length)) :
    (collectTexts ocr pages order).length = pages.length ∧
      ∀ (i : Nat) (hi : i < pages.length),
        (collectTexts ocr pages order).get? i =
          some (ocr (pages.get ⟨i, hi⟩)) := by
  constructor
  · rw [collectTexts, foldl_collectStep_length, List.length_replicate]
  · intro i hi
    exact collectTexts_get ocr pages order hperm i hi

/-- Witness for C1 at a concrete three-page document with an out-of-order
completion schedule. -/
theorem c1_witness :
    (collectTexts (fun s => s ++ "!") ["a", "b", "c"] [2, 0, 1]).length = 3 ∧
      (collectTexts (fun s => s ++ "!") ["a", "b", "c"] [2, 0, 1]).get? 1 =
        some "b!" := by
  have h := c1_ocr_order_preservation (fun s => s ++ "!") ["a", "b", "c"]
    [2, 0, 1] (by decide)
  exact ⟨h.1, h.2 1 (by decide)⟩

/-! ## Worker-count computation (`max_workers`) -/

/-- Python's `os.cpu_count() or 1`: `cpu_count()` may return `None`, and
`or 1` replaces any falsy value (`None`, `0`) with `1`. -/
def cpuCountOrOne : Option Nat → Nat
  | none => 1
  | some 0 => 1
  | some (n + 1) => n + 1

/-- Default of the `pdf_parallel_pages` setting
(`pdf_parallel_pages: int = Field(default=4, gt=0, le=10)`). -/
def pdfParallelPagesDefault : Nat := 4

/-- `max_workers = min(settings.pdf_parallel_pages, len(images),
os.cpu_count() or 1)` from `_extract_text_from_pdf`. -/
def maxWorkers (pdfParallelPages pageCount : Nat) (cpuCount : Option Nat) : Nat :=
  min pdfParallelPages (min pageCount (cpuCountOrOne cpuCount))

/-- C4: with a positive reported core count, the worker count is the
three-way minimum of the configured limit, the page count and the core
count, and the configured limit defaults to 4. -/
theorem c4_max_workers (limit pageCount cores : Nat) (hc : 0 < cores) :
    maxWorkers limit pageCount (some cores) = min limit (min pageCount cores) ∧
      pdfParallelPagesDefault = 4 := by
  constructor
  · cases cores with
    | zero => exact absurd hc (lt_irrefl 0)
    | succ n => rfl
  · rfl

/-- Witness for C4: limit 4, a 10-page document on a 2-core machine uses
2 workers. -/
theorem c4_witness :
    maxWorkers pdfParallelPagesDefault 10 (some 2) = 2 := by
  have h := c4_max_workers pdfParallelPagesDefault 10 2 (by decide)
  rw [h.1]
  decide

/-! ## Assembled text (`"\n".join(t for t in texts if t)`) -/

/-- The final join in `_extract_text_from_pdf`:
`"\n".join(t for t in texts if t)` — empty page strings are skipped
(`if t` is Python truthiness on strings) and the rest are joined with a
newline separator. -/
def joinNonEmpty (texts : List String) : String :=
  String.intercalate "\n" (texts.filter fun t => !t.isEmpty)

/-- The whole of `_extract_text_from_pdf` after rasterization: run OCR on
every page through the worker pool (futures completing in
`completionOrder`) and join the non-empty page texts. -/
def extractTextFromPdf {α : Type} (ocr : α → String) (pages : List α)
    (completionOrder : List Nat) : String :=
  joinNonEmpty (collectTexts ocr pages completionOrder)

/-- The spec's description of the assembled text: the per-page OCR outputs,
in original page order, with empty strings skipped, concatenated with
newline separators, each page's text taken verbatim from the engine. -/
def assembledTextSpec {α : Type} (ocr : α → String) (pages : List α) : String :=
  String.intercalate "\n" ((pages.map ocr).filter fun t => !t.isEmpty)

theorem collectTexts_eq_map {α : Type} (ocr : α → String) (pages : List α)
    (order : List Nat) (hperm : order.Perm (List.range pages.length)) :
    collectTexts ocr pages order = pages.map ocr := by
  have hlen : (collectTexts ocr pages order).length = pages.length :=
    (c1_ocr_order_preservation ocr pages order hperm).1
  apply List.ext_get?
  intro i
  by_cases hi : i < pages.length
  · rw [collectTexts_get ocr pages order hperm i hi,
      List.get?_eq_get (by simpa using hi), List.get_map]
  · rw [List.get?_eq_none.mpr (by omega),
      List.get?_eq_none.mpr (by simpa using Nat.le_of_not_lt hi)]

/-- C5: the assembled text equals the per-page OCR outputs taken in
original page order, joined with newline separators with empty page
strings skipped and each page's text preserved verbatim, for any worker
completion order. -/
theorem c5_assembled_text {α : Type} (ocr : α → String) (pages : List α)
    (order : List Nat) (hperm : order.Perm (List.range pages.length)) :
    extractTextFromPdf ocr pages order = assembledTextSpec ocr pages := by
  rw [extractTextFromPdf, joinNonEmpty, collectTexts_eq_map ocr pages order hperm,
    assembledTextSpec]

/-- Witness for C5: a three-page document with an empty middle page and
out-of-order completion. -/
theorem c5_witness :
    extractTextFromPdf (fun s => s) ["pg1", "", "pg3"] [1, 2, 0] = "pg1\npg3" := by
  rw [c5_assembled_text (fun s => s) ["pg1", "", "pg3"] [1, 2, 0] (by decide)]
  rfl

/-! ## Review Queue State Machine (modelled from the spec, §4.6)

The state machine itself lives in the backend (`api/server.py`), which is
not part of this source tree — only its HTTP clients are.  The definitions
below are therefore modelled from the specification's §4.6. -/

/-- Document lifecycle states (spec §3 / §4.6). -/
inductive DocStatus
  | uploaded
  | queued
  | inReview
  | resolved
  deriving DecidableEq, Repr

/-- Modelled from the spec: the `Document` fields the Review Queue State
Machine reads and writes (spec §3); identity, applicant and timestamp
fields are irrelevant to the transition guards and omitted. -/
structure ReviewDoc where
  status : DocStatus
  assignedReviewerId : Option Nat
  categoryPredicted : String
  categoryFinal : Option String
  deriving DecidableEq, Repr

/-- Guard-violation errors of the state machine (spec §4.6/§7):
`alreadyClaimed` for a lost claim race, `invalidTransition` for any other
guarded transition attempted from the wrong state, naming the current and
the attempted state. -/
inductive ReviewError
  | alreadyClaimed
  | invalidTransition (current : DocStatus) (attempted : DocStatus)
  deriving DecidableEq, Repr

/-- Audit-log rows appended by transitions (spec §3 `ReviewAction`). -/
inductive ReviewActionKind
  | claim
  | release
  | accept
  | override
  deriving DecidableEq, Repr

/-- Modelled from the spec: `claim(document_id, reviewer_id)` (spec §4.6),
as the serialized effect of the backend's atomic compare-and-set on
`(status, assigned_reviewer_id)`: it succeeds exactly when the document is
still `queued`; a claim that finds the document already taken fails with
`AlreadyClaimed`; any other source state is an `InvalidTransition`. -/
def claimDoc (doc : ReviewDoc) (reviewerId : Nat) :
    Except ReviewError (ReviewDoc × ReviewActionKind) :=
  match doc.status with
  | .queued =>
      .ok ({ doc with status := .inReview, assignedReviewerId := some reviewerId },
        .claim)
  | .inReview => .error .alreadyClaimed
  | s => .error (.invalidTransition s .inReview)

/-- Modelled from the spec: `release(document_id, reviewer_id)` (spec
§4.6): allowed only from `in_review` by the assigned reviewer; resets to
`queued` and clears the assignment. -/
def releaseDoc (doc : ReviewDoc) (reviewerId : Nat) :
    Except ReviewError (ReviewDoc × ReviewActionKind) :=
  match doc.status with
  | .inReview =>
      if doc.assignedReviewerId = some reviewerId then
        .ok ({ doc with status := .queued, assignedReviewerId := none }, .release)
      else .error (.invalidTransition .inReview .queued)
  | s => .error (.invalidTransition s .queued)

/-- Modelled from the spec: `resolve(document_id, reviewer_id,
final_category, ...)` (spec §4.6): allowed only from `in_review` by the
assigned reviewer; sets `status = resolved` and `category_final`; the
logged action is `accept` when the final category matches the prediction
and `override` otherwise.  Any guard violation is an `InvalidTransition`
naming the current state and the attempted state `resolved`. -/
def resolveDoc (doc : ReviewDoc) (reviewerId : Nat) (finalCategory : String) :
    Except ReviewError (ReviewDoc × ReviewActionKind) :=
  match doc.status with
  | .inReview =>
      if doc.assignedReviewerId = some reviewerId then
        .ok ({ doc with status := .resolved, categoryFinal := some finalCategory },
          if finalCategory = doc.categoryPredicted then .accept else .override)
      else .error (.invalidTransition .inReview .resolved)
  | s => .error (.invalidTransition s .resolved)

/-- C2 (spec-modelled): two claims on a `queued` document by distinct
reviewers, in either serialization order the backend's transactional store
may choose: the first call succeeds and moves the document to `in_review`
assigned to that reviewer, and the second call on the resulting document
fails with `AlreadyClaimed`, leaving the winner's state intact (the failed
call returns no document, so the stored row is unchanged).  Instantiating
`(r1, r2)` in both orders covers both serializations. -/
theorem c2_claim_exclusive (doc : ReviewDoc) (r1 r2 : Nat)
    (hq : doc.status = .queued) (hne : r1 ≠ r2) :
    ∃ d1 : ReviewDoc,
      claimDoc doc r1 = .ok (d1, .claim) ∧
        d1.status = .inReview ∧
        d1.assignedReviewerId = some r1 ∧
        claimDoc d1 r2 = .error .alreadyClaimed := by
  refine ⟨{ doc with status := .inReview, assignedReviewerId := some r1 }, ?_, rfl, rfl, ?_⟩
  · rw [claimDoc, hq]
  · rfl

/-- Witness for C2 at a concrete queued document and reviewers 1 ≠ 2. -/
theorem c2_witness :
    ∃ d1 : ReviewDoc,
      claimDoc ⟨.queued, none, "Diplom", none⟩ 1 = .ok (d1, .claim) ∧
        d1.status = .inReview ∧
        d1.assignedReviewerId = some 1 ∧
        claimDoc d1 2 = .error .alreadyClaimed :=
  c2_claim_exclusive ⟨.queued, none, "Diplom", none⟩ 1 2 rfl (by decide)

/-- C7 (spec-modelled): `resolve` succeeds only on an `in_review` document
invoked by its assigned reviewer, and on a `queued` or `resolved` document
it always fails with `InvalidTransition` naming the current state and the
attempted state `resolved`. -/
theorem c7_resolve_guard (doc : ReviewDoc) (reviewerId : Nat) (cat : String) :
    (∀ out, resolveDoc doc reviewerId cat = .ok out →
        doc.status = .inReview ∧ doc.assignedReviewerId = some reviewerId) ∧
      (doc.status = .queued ∨ doc.status = .resolved →
        resolveDoc doc reviewerId cat =
          .error (.invalidTransition doc.status .resolved)) := by
  constructor
  · intro out hok
    rw [resolveDoc] at hok
    cases hstatus : doc.status with
    | inReview =>
        rw [hstatus] at hok
        by_cases hr : doc.assignedReviewerId = some reviewerId
        · exact ⟨rfl, hr⟩
        · rw [if_neg hr] at hok; cases hok
    | uploaded => rw [hstatus] at hok; cases hok
    | queued => rw [hstatus] at hok; cases hok
    | resolved => rw [hstatus] at hok; cases hok
  · intro hs
    rcases hs with hs | hs <;> rw [resolveDoc, hs]

/-- Witness for C7: resolving a concrete `queued` document fails with
`InvalidTransition queued resolved`, and a well-formed resolve by the
assigned reviewer is indeed from `in_review`. -/
theorem c7_witness :
    resolveDoc ⟨.queued, none, "Diplom", none⟩ 1 "Lgota" =
      .error (.invalidTransition .queued .resolved) ∧
      resolveDoc ⟨.resolved, none, "Diplom", some "Diplom"⟩ 1 "Lgota" =
        .error (.invalidTransition .resolved .resolved) := by
  constructor
  · exact (c7_resolve_guard ⟨.queued, none, "Diplom", none⟩ 1 "Lgota").2 (Or.inl rfl)
  · exact (c7_resolve_guard ⟨.resolved, none, "Diplom", some "Diplom"⟩ 1 "Lgota").2
      (Or.inr rfl)

/-! ## Ingestion Orchestrator (modelled from the spec, §4.1 and §4.5)

The orchestrator and the content cache live in the backend
(`api/server.py`), which is not part of this source tree; the structure of
the SHA-256 disk cache is documented in the repository's performance
notes.  The definitions below are modelled from the specification. -/

/-- Modelled from the spec: a `CacheEntry` (§3) — the extracted text,
category and confidence stored for one digest.  Expiry metadata is
omitted: no time passes within the verified property and `sweep` is never
invoked by `ingest`. -/
structure CacheEntry where
  extractedText : String
  category : String
  confidence : ℚ
  deriving DecidableEq, Repr

/-- Modelled from the spec: a `Document` row as the Orchestrator creates
it (§3, §4.5): one row per upload event, carrying the predicted
category/confidence and the routed status per the §4.4 threshold policy. -/
structure IngestedDoc where
  applicantName : String
  applicantLastname : String
  categoryPredicted : String
  categoryConfidence : ℚ
  textExcerpt : String
  status : DocStatus
  categoryFinal : Option String
  deriving DecidableEq, Repr

/-- Confidence threshold for auto-resolution, default 0.65 (spec §4.4). -/
def confidenceThreshold : ℚ := 13 / 20

/-- Modelled from the spec (§4.4): confidence at/above threshold with a
non-`Unclassified` category auto-resolves (`category_final =
category_predicted`); anything else is queued for review. -/
def routeDoc (category : String) (confidence : ℚ) : DocStatus × Option String :=
  if confidenceThreshold ≤ confidence ∧ category ≠ "Unclassified" then
    (.resolved, some category)
  else (.queued, none)

/-- Build the `Document` row for one upload from the `(text, category,
confidence)` triple (fresh or cached). -/
def mkIngestedDoc (name lastname : String) (entry : CacheEntry) : IngestedDoc :=
  { applicantName := name
    applicantLastname := lastname
    categoryPredicted := entry.category
    categoryConfidence := entry.confidence
    textExcerpt := entry.extractedText
    status := (routeDoc entry.category entry.confidence).1
    categoryFinal := (routeDoc entry.category entry.confidence).2 }

/-- The pipeline state `ingest` reads and writes: the content cache keyed
by digest, the append-only `Document` rows, and a counter of how many
times the rasterize→OCR→classify pipeline actually ran. -/
structure IngestState where
  cache : List (Nat × CacheEntry)
  documents : List IngestedDoc
  ocrRuns : Nat
  deriving Repr

/-- `lookup(digest)` on the content cache (spec §4.1). -/
def cacheLookup (cache : List (Nat × CacheEntry)) (digest : Nat) :
    Option CacheEntry :=
  (cache.find? fun e => e.1 = digest).map Prod.snd

/-- Modelled from the spec: `ingest(file_bytes, applicant_name,
applicant_lastname)` (§4.5).  `hash` stands for the SHA-256 digest of the
raw bytes and `process` for the rasterize→OCR→classify pipeline run on a
cache miss; both are parameters of the model.  On a hit the cached triple
is reused and the pipeline does not run; on a miss the result is stored in
the cache; either way a new `Document` row is appended. -/
def ingest (hash : List Nat → Nat) (process : List Nat → CacheEntry)
    (s : IngestState) (fileBytes : List Nat) (name lastname : String) :
    IngestState × IngestedDoc :=
  let digest := hash fileBytes
  match cacheLookup s.cache digest with
  | some entry =>
      let doc := mkIngestedDoc name lastname entry
      ({ s with documents := s.documents ++ [doc] }, doc)
  | none =>
      let entry := process fileBytes
      let doc := mkIngestedDoc name lastname entry
      ({ cache := (digest, entry) :: s.cache
         documents := s.documents ++ [doc]
         ocrRuns := s.ocrRuns + 1 }, doc)

/-- C3 (spec-modelled): ingesting the same bytes twice, starting from a
state where the digest is not cached, runs the OCR pipeline exactly once:
the second call hits the cache written by the first, its classification
output (category, confidence, text) is identical to the first call's, and
both calls still append their own `Document` row. -/
theorem c3_ingest_idempotent (hash : List Nat → Nat)
    (process : List Nat → CacheEntry) (s : IngestState) (fileBytes : List Nat)
    (n1 l1 n2 l2 : String)
    (hmiss : cacheLookup s.cache (hash fileBytes) = none) :
    (ingest hash process (ingest hash process s fileBytes n1 l1).1 fileBytes n2 l2).1.ocrRuns
        = s.ocrRuns + 1 ∧
      cacheLookup (ingest hash process s fileBytes n1 l1).1.cache (hash fileBytes)
        = some (process fileBytes) ∧
      (ingest hash process (ingest hash process s fileBytes n1 l1).1 fileBytes n2 l2).2.categoryPredicted
        = (ingest hash process s fileBytes n1 l1).2.categoryPredicted ∧
      (ingest hash process (ingest hash process s fileBytes n1 l1).1 fileBytes n2 l2).2.categoryConfidence
        = (ingest hash process s fileBytes n1 l1).2.categoryConfidence ∧
      (ingest hash process (ingest hash process s fileBytes n1 l1).1 fileBytes n2 l2).2.textExcerpt
        = (ingest hash process s fileBytes n1 l1).2.textExcerpt ∧
      (ingest hash process (ingest hash process s fileBytes n1 l1).1 fileBytes n2 l2).1.documents.length
        = s.documents.length + 2 := by
  have h1 : ingest hash process s fileBytes n1 l1 =
      ({ cache := (hash fileBytes, process fileBytes) :: s.cache
         documents := s.documents ++ [mkIngestedDoc n1 l1 (process fileBytes)]
         ocrRuns := s.ocrRuns + 1 },
        mkIngestedDoc n1 l1 (process fileBytes)) := by
    rw [ingest]
    simp only [hmiss]
  have h2 : cacheLookup ((hash fileBytes, process fileBytes) :: s.cache)
      (hash fileBytes) = some (process fileBytes) := by
    simp [cacheLookup, List.find?]
  rw [h1]
  refine ⟨?_, h2, ?_, ?_, ?_, ?_⟩ <;>
    simp [ingest, h2, mkIngestedDoc]

/-- Witness for C3 at a concrete byte sequence, hash and pipeline,
starting from the empty state. -/
theorem c3_witness :
    (ingest (fun b => b.foldl (· + ·) 0)
        (fun _ => ⟨"some text", "Diplom", 9 / 10⟩)
        ((ingest (fun b => b.foldl (· + ·) 0)
            (fun _ => ⟨"some text", "Diplom", 9 / 10⟩)
            ⟨[], [], 0⟩ [1, 2, 3] "Ivan" "Ivanov").1)
        [1, 2, 3] "Petr" "Petrov").1.ocrRuns = 0 + 1 := by
  have h := c3_ingest_idempotent (fun b => b.foldl (· + ·) 0)
    (fun _ => ⟨"some text", "Diplom", 9 / 10⟩) ⟨[], [], 0⟩ [1, 2, 3]
    "Ivan" "Ivanov" "Petr" "Petrov" rfl
  exact h.1

/-! ## Category normalization (`normalizeCategoryKey` in both clients) -/

/-- The closed category enumeration: the values of `CATEGORY_KEY_MAP` in
the legacy client, i.e. the six real categories plus `Unclassified`. -/
def closedCategories : List String :=
  ["Udostoverenie", "Diplom", "ENT", "Lgota", "Unclassified", "Privivka",
    "MedSpravka"]

/-- `CATEGORY_KEY_MAP` of the legacy client (`src/components/AIReception.tsx`),
read as a partial lookup on the canonicalized key. -/
def categoryKeyMap (simple : String) : Option String :=
  if simple = "udostoverenie" then some "Udostoverenie"
  else if simple = "diplom" then some "Diplom"
  else if simple = "ent" then some "ENT"
  else if simple = "lgota" then some "Lgota"
  else if simple = "unclassified" then some "Unclassified"
  else if simple = "privivka" then some "Privivka"
  else if simple = "medspravka" then some "MedSpravka"
  else none

/-- The whitespace characters stripped by JavaScript's `String.trim` (the
ASCII ones; the category keys and form inputs modelled here contain no
exotic Unicode space characters). -/
def jsWhitespace (c : Char) : Bool :=
  c = ' ' || c = '\t' || c = '\n' || c = '\r' || c = '\x0b' || c = '\x0c'

/-- JavaScript's `String.prototype.trim`: strip leading and trailing
whitespace. -/
def jsTrim (s : String) : String :=
  ((s.toList.dropWhile jsWhitespace).reverse.dropWhile jsWhitespace).reverse.asString

/-- JavaScript's `String.prototype.toLowerCase` on the ASCII range. -/
def jsToLower (s : String) : String :=
  (s.toList.map Char.toLower).asString

/-- ASCII lower-case letters and digits, the characters kept by the
legacy client's `.replace(/[^a-z0-9]/g, "")`. -/
def isLowerAlphaNum (c : Char) : Bool :=
  ('a' ≤ c && c ≤ 'z') || ('0' ≤ c && c ≤ '9')

/-- `String(raw).trim().toLowerCase().replace(/[^a-z0-9]/g, "")` from the
legacy client's `normalizeCategoryKey`. -/
def simplifyCategoryKey (s : String) : String :=
  ((jsToLower (jsTrim s)).toList.filter isLowerAlphaNum).asString

/-- `normalizeCategoryKey` of the legacy client
(`src/components/AIReception.tsx`): falsy input (missing or empty) gives
`"Unclassified"`, otherwise the canonicalized key is looked up in
`CATEGORY_KEY_MAP`, defaulting to `"Unclassified"` when absent
(`CATEGORY_KEY_MAP[simple] || "Unclassified"`). -/
def normalizeCategoryKeyLegacy (raw : Option String) : String :=
  match raw with
  | none => "Unclassified"
  | some s =>
      if s = "" then "Unclassified"
      else (categoryKeyMap (simplifyCategoryKey s)).getD "Unclassified"

/-- `normalizeCategoryKey` of the newer web client
(`web/src/components/AIReception.tsx`): falsy input gives
`"Unclassified"`, any other string is merely trimmed and passed through
(`return String(raw).trim()`). -/
def normalizeCategoryKeyWeb (raw : Option String) : String :=
  match raw with
  | none => "Unclassified"
  | some s => if s = "" then "Unclassified" else jsTrim s

/-- Counterexample to C6: the web client passes the unknown category
string `"Foobar"` through the boundary unchanged — it is neither rejected
nor a member of the closed enumeration — and the legacy client silently
defaults the unknown string `"zz-z"` to `"Unclassified"` instead of
rejecting it. -/
theorem c6_counterexample :
    normalizeCategoryKeyWeb (some "Foobar") = "Foobar" ∧
      closedCategories.contains "Foobar" = false ∧
      normalizeCategoryKeyLegacy (some "zz-z") = "Unclassified" := by
  refine ⟨by decide, by decide, by decide⟩

theorem categoryKeyMap_closed (k : String) :
    closedCategories.contains ((categoryKeyMap k).getD "Unclassified") = true := by
  rw [categoryKeyMap]
  repeat' split
  all_goals decide

/-- C6 amended: no rejection happens at the boundary.  The legacy client
canonicalizes the string and silently defaults any unknown string to
`Unclassified`, so its output always lies in the closed enumeration; the
newer web client performs no membership check at all, returning any
non-empty string trimmed but otherwise unchanged, and defaults only
missing or empty input to `Unclassified`. -/
theorem c6_normalization (raw : Option String) (s : String)
    (hs : s ≠ "") :
    closedCategories.contains (normalizeCategoryKeyLegacy raw) = true ∧
      normalizeCategoryKeyWeb (some s) = jsTrim s ∧
      normalizeCategoryKeyWeb none = "Unclassified" := by
  refine ⟨?_, ?_, rfl⟩
  · match raw with
    | none => decide
    | some t =>
        rw [normalizeCategoryKeyLegacy]
        by_cases ht : t = ""
        · rw [if_pos ht]; decide
        · rw [if_neg ht]
          exact categoryKeyMap_closed (simplifyCategoryKey t)
  · rw [normalizeCategoryKeyWeb, if_neg hs]

/-- Witness for C6's amended statement at concrete inputs. -/
theorem c6_witness :
    closedCategories.contains (normalizeCategoryKeyLegacy (some " DIPLOM ")) = true ∧
      normalizeCategoryKeyWeb (some " Foobar ") = jsTrim " Foobar " ∧
      normalizeCategoryKeyWeb none = "Unclassified" :=
  c6_normalization (some " DIPLOM ") " Foobar " (by decide)

/-! ## Review-queue API client (`reviewApi.ts`) -/

/-- The client's `Document` interface (`reviewApi.ts`). -/
structure ClientDocument where
  id : String
  originalName : String
  storedFilename : String
  applicantName : String
  applicantLastname : String
  categoryPredicted : String
  categoryConfidence : ℚ
  categoryFinal : Option String
  status : DocStatus
  assignedReviewerId : Option String
  uploadedAt : String
  updatedAt : String
  textExcerpt : Option String
  deriving DecidableEq, Repr

/-- The client's `ResolveRequest` interface (`reviewApi.ts`). -/
structure ResolveRequest where
  finalCategory : String
  applicantName : Option String
  applicantLastname : Option String
  comment : Option String
  deriving DecidableEq, Repr

/-- An HTTP response as the client observes it: `response.ok`, the
`detail` field of the parsed error body (absent when the server sent
none), and the parsed success body. -/
structure ApiResponse (α : Type) where
  ok : Bool
  errorDetail : Option String
  body : α
  deriving Repr

/-- JavaScript's `error.detail || fallback`: the fallback is used when
`detail` is absent or the empty string (both falsy). -/
def jsStringOr (detail : Option String) (fallback : String) : String :=
  match detail with
  | some s => if s = "" then fallback else s
  | none => fallback

/-- `claimDocument` (`reviewApi.ts`): POST `/claim`; a non-ok response
throws `Error(error.detail || "Не удалось принять документ")`, an ok
response returns the parsed `Document`. -/
def claimDocument (resp : ApiResponse ClientDocument) :
    Except String ClientDocument :=
  if resp.ok then .ok resp.body
  else .error (jsStringOr resp.errorDetail "Не удалось принять документ")

/-- `releaseDocument` (`reviewApi.ts`): POST `/release`, same shape. -/
def releaseDocument (resp : ApiResponse ClientDocument) :
    Except String ClientDocument :=
  if resp.ok then .ok resp.body
  else .error (jsStringOr resp.errorDetail "Не удалось вернуть документ в очередь")

/-- `resolveDocument` (`reviewApi.ts`): POST `/resolve` with the
`ResolveRequest` JSON body, same response handling. -/
def resolveDocument (request : ResolveRequest)
    (resp : ApiResponse ClientDocument) : Except String ClientDocument :=
  if resp.ok then .ok resp.body
  else .error (jsStringOr resp.errorDetail "Не удалось завершить проверку документа")

/-- C8: for each of the claim, release and resolve client calls, a non-ok
response makes the call throw an `Error` carrying the server's `detail`
message (whenever the server supplied a non-empty one), and an ok response
makes the call return the `Document` parsed from the body. -/
theorem c8_client_result (request : ResolveRequest)
    (resp : ApiResponse ClientDocument) (d : String) :
    (resp.ok = true →
        claimDocument resp = .ok resp.body ∧
          releaseDocument resp = .ok resp.body ∧
          resolveDocument request resp = .ok resp.body) ∧
      (resp.ok = false → resp.errorDetail = some d → d ≠ "" →
        claimDocument resp = .error d ∧
          releaseDocument resp = .error d ∧
          resolveDocument request resp = .error d) := by
  constructor
  · intro h
    refine ⟨?_, ?_, ?_⟩ <;>
      simp [claimDocument, releaseDocument, resolveDocument, h]
  · intro h hd hne
    refine ⟨?_, ?_, ?_⟩ <;>
      simp [claimDocument, releaseDocument, resolveDocument, h, jsStringOr,
        hd, hne]

/-- A concrete `Document` value for witnesses. -/
def sampleClientDoc : ClientDocument :=
  { id := "doc-1"
    originalName := "scan.pdf"
    storedFilename := "doc-1.pdf"
    applicantName := "Ivan"
    applicantLastname := "Ivanov"
    categoryPredicted := "Diplom"
    categoryConfidence := 9 / 10
    categoryFinal := none
    status := .queued
    assignedReviewerId := none
    uploadedAt := "2024-01-01T00:00:00"
    updatedAt := "2024-01-01T00:00:00"
    textExcerpt := some "диплом о среднем образовании" }

/-- Witness for C8: a failed claim surfaces the server's detail message. -/
theorem c8_witness :
    claimDocument ⟨false, some "Документ уже занят", sampleClientDoc⟩ =
      .error "Документ уже занят" :=
  ((c8_client_result ⟨"Diplom", none, none, none⟩
      ⟨false, some "Документ уже занят", sampleClientDoc⟩
      "Документ уже занят").2 rfl rfl (by decide)).1

/-! ## Authentication client (`auth.ts`, old and new versions) -/

/-- User roles (`role ∈ {reviewer, admin}`). -/
inductive UserRole
  | reviewer
  | admin
  deriving DecidableEq, Repr

/-- The older auth client's `User` interface. -/
structure AuthUser where
  id : Nat
  email : String
  role : UserRole
  createdAt : String
  updatedAt : String
  deriving DecidableEq, Repr

/-- The newer auth client's `User` interface. -/
structure WebUser where
  id : String
  email : String
  displayName : String
  role : UserRole
  isActive : Bool
  lastLoginAt : Option String
  deriving DecidableEq, Repr

/-- The newer auth client's `SessionInfo` interface. -/
structure SessionInfo where
  expiresAt : String
  rememberMe : Bool
  deriving DecidableEq, Repr

/-- The newer auth client's `AuthSession` interface. -/
structure AuthSession where
  user : WebUser
  session : SessionInfo
  deriving DecidableEq, Repr

/-- The outcome of a `fetch` call as `getMe` observes it: either `fetch`
itself threw (network failure), or a response arrived with an HTTP status
and a body that parses to the expected payload (`some`) or fails to parse
(`none`). -/
inductive FetchOutcome (α : Type)
  | networkError
  | response (status : Nat) (json : Option α)

/-- `response.ok`: status in the 200–299 range. -/
def httpOk (status : Nat) : Bool :=
  200 ≤ status && status < 300

/-- The try-block of the older `getMe` (`lib/auth.ts`): network failure
throws; 401 returns null; any other non-ok status throws the built API
error; an ok response whose body fails to parse throws; otherwise
`data.user` is returned.  The carried message is irrelevant: the catch
handler discards it. -/
def getMeAttempt (o : FetchOutcome AuthUser) : Except String (Option AuthUser) :=
  match o with
  | .networkError => .error "fetch failed"
  | .response status json =>
      if status = 401 then .ok none
      else if httpOk status then
        match json with
        | some u => .ok (some u)
        | none => .error "invalid JSON"
      else .error "request failed"

/-- The older `getMe`: the try-block wrapped in `catch { return null }`. -/
def getMe (o : FetchOutcome AuthUser) : Option AuthUser :=
  match getMeAttempt o with
  | .ok v => v
  | .error _ => none

/-- `pickAuthSession` of the newer client: keep only `user` and
`session` from the parsed payload. -/
def pickAuthSession (data : AuthSession) : AuthSession :=
  { user := data.user, session := data.session }

/-- The try-block of the newer `getMe` (`web/src/lib/auth.ts`): same
shape, returning the picked `AuthSession`. -/
def getMeSessionAttempt (o : FetchOutcome AuthSession) :
    Except String (Option AuthSession) :=
  match o with
  | .networkError => .error "fetch failed"
  | .response status json =>
      if status = 401 then .ok none
      else if httpOk status then
        match json with
        | some data => .ok (some (pickAuthSession data))
        | none => .error "invalid JSON"
      else .error "request failed"

/-- The newer `getMe`: every caught error (network `TypeError` or any
other) returns null. -/
def getMeSession (o : FetchOutcome AuthSession) : Option AuthSession :=
  match getMeSessionAttempt o with
  | .ok v => v
  | .error _ => none

/-- A concrete older-client user for counterexample and witnesses. -/
def sampleAuthUser : AuthUser :=
  { id := 7
    email := "reviewer@example.kz"
    role := .reviewer
    createdAt := "2024-01-01"
    updatedAt := "2024-01-01" }

/-- Counterexample to C9 as stated: a 500 response with a parseable body
is neither a 401 nor a network or JSON-parsing error, yet `getMe` returns
null rather than the authenticated user. -/
theorem c9_counterexample :
    getMe (FetchOutcome.response 500 (some sampleAuthUser)) = none ∧
      ¬(∀ u : AuthUser, getMe (FetchOutcome.response 500 (some u)) = some u) := by
  constructor
  · decide
  · intro h
    have hu := h sampleAuthUser
    rw [show getMe (FetchOutcome.response 500 (some sampleAuthUser)) = none
      from by decide] at hu
    cases hu

/-- C9 amended: `getMe` never throws — it returns null on network
failure, on a 401, on any other non-ok status, and on a JSON-parsing
failure, and returns the authenticated user (the picked `AuthSession` in
the newer client) exactly for an ok, non-401 response with a parseable
body. -/
theorem c9_get_me_total (status : Nat) (u : AuthUser) (a : AuthSession)
    (j : Option AuthUser) (j2 : Option AuthSession) :
    getMe .networkError = none ∧
      getMe (.response 401 j) = none ∧
      (httpOk status = false → getMe (.response status j) = none) ∧
      getMe (.response status none) = none ∧
      (status ≠ 401 → httpOk status = true →
        getMe (.response status (some u)) = some u) ∧
      getMeSession .networkError = none ∧
      getMeSession (.response 401 j2) = none ∧
      (httpOk status = false → getMeSession (.response status j2) = none) ∧
      getMeSession (.response status none) = none ∧
      (status ≠ 401 → httpOk status = true →
        getMeSession (.response status (some a)) = some (pickAuthSession a)) := by
  refine ⟨rfl, ?_, ?_, ?_, ?_, rfl, ?_, ?_, ?_, ?_⟩
  · simp [getMe, getMeAttempt]
  · intro hok
    by_cases h401 : status = 401
    · simp [getMe, getMeAttempt, h401]
    · simp [getMe, getMeAttempt, h401, hok]
  · by_cases h401 : status = 401
    · simp [getMe, getMeAttempt, h401]
    · by_cases hok : httpOk status
      · simp [getMe, getMeAttempt, h401, hok]
      · simp [getMe, getMeAttempt, h401, hok]
  · intro h401 hok
    simp [getMe, getMeAttempt, h401, hok]
  · simp [getMeSession, getMeSessionAttempt]
  · intro hok
    by_cases h401 : status = 401
    · simp [getMeSession, getMeSessionAttempt, h401]
    · simp [getMeSession, getMeSessionAttempt, h401, hok]
  · by_cases h401 : status = 401
    · simp [getMeSession, getMeSessionAttempt, h401]
    · by_cases hok : httpOk status
      · simp [getMeSession, getMeSessionAttempt, h401, hok]
      · simp [getMeSession, getMeSessionAttempt, h401, hok]
  · intro h401 hok
    simp [getMeSession, getMeSessionAttempt, h401, hok]

/-- Witness for C9's amended statement: an ok 200 response returns the
user, and a 500 response returns null. -/
theorem c9_witness :
    getMe (FetchOutcome.response 200 (some sampleAuthUser)) =
        some sampleAuthUser ∧
      getMe (FetchOutcome.response 500 none) = none := by
  have h := c9_get_me_total 200 sampleAuthUser
    ⟨⟨"u1", "a@b.kz", "A", .admin, true, none⟩, ⟨"2025-01-01", false⟩⟩
    none none
  have h500 := c9_get_me_total 500 sampleAuthUser
    ⟨⟨"u1", "a@b.kz", "A", .admin, true, none⟩, ⟨"2025-01-01", false⟩⟩
    none none
  exact ⟨h.2.2.2.2.1 (by decide) (by decide), h500.2.2.2.1⟩

/-! ## Upload form validation (`AIReception.tsx`) -/

/-- A digit character `0`–`9`, the character class of the validation
regex `/^[^0-9]+$/`. -/
def isDigitChar (c : Char) : Bool :=
  '0' ≤ c && c ≤ '9'

/-- `/^[^0-9]+$/.test(s)`: `s` is non-empty and contains no digit. -/
def noDigitsTest (s : String) : Bool :=
  !(s = "") && s.toList.all fun c => !isDigitChar c

/-- `isFormValid` (`AIReception.tsx`): both trimmed inputs must have
length at least 2 and pass the no-digits regex. -/
def isFormValid (name lastName : String) : Bool :=
  let trimmedName := jsTrim name
  let trimmedLast := jsTrim lastName
  if trimmedName.length < 2 || trimmedLast.length < 2 then false
  else noDigitsTest trimmedName && noDigitsTest trimmedLast

/-- What a drop event leads to in `handleDrop`: an early return with no
effect, an error toast for rejected files, the form-validation error
toast, or a call to `uploadFiles` — the only branch that issues an HTTP
request. -/
inductive DropAction
  | ignored
  | rejectionError (msg : String)
  | validationError
  | upload (files : List String)
  deriving DecidableEq, Repr

/-- `strings.invalidFileType` of the web client. -/
def invalidFileTypeMsg : String :=
  "Неверный формат файла. Поддерживаются PDF, JPG, PNG."

/-- `handleDrop` (`web/src/components/AIReception.tsx`): no accepted files
→ early return; any rejection → rejection toast (its first error message,
or the fallback); invalid form → validation toast; otherwise
`uploadFiles(acceptedFiles)`.  Each rejection is modelled by its first
error message (`fileRejections?.[0]?.errors?.[0]?.message`). -/
def handleDrop (acceptedFiles : List String)
    (rejections : List (Option String)) (name lastName : String) : DropAction :=
  if acceptedFiles.isEmpty then .ignored
  else if !rejections.isEmpty then
    .rejectionError ((rejections.head?.join).getD invalidFileTypeMsg)
  else if !isFormValid name lastName then .validationError
  else .upload acceptedFiles

theorem noDigitsTest_eq (t : String) :
    noDigitsTest t = true ↔
      t ≠ "" ∧ t.toList.all (fun c => !isDigitChar c) = true := by
  rw [noDigitsTest, Bool.and_eq_true, Bool.not_eq_true',
    decide_eq_false_iff_not]

/-- C10: an upload is issued only when both trimmed inputs have length at
least 2 and contain no digit (the `isFormValid` precondition, characterized
in the middle conjunct); when files were dropped cleanly but the
precondition fails, no request is made and the validation error is shown
instead. -/
theorem c10_upload_guard (acceptedFiles : List String)
    (rejections : List (Option String)) (name lastName : String) :
    (∀ fs, handleDrop acceptedFiles rejections name lastName = .upload fs →
        isFormValid name lastName = true) ∧
      (isFormValid name lastName = true ↔
        2 ≤ (jsTrim name).length ∧ 2 ≤ (jsTrim lastName).length ∧
          (jsTrim name).toList.all (fun c => !isDigitChar c) = true ∧
          (jsTrim lastName).toList.all (fun c => !isDigitChar c) = true) ∧
      (acceptedFiles ≠ [] → rejections = [] →
        isFormValid name lastName = false →
        handleDrop acceptedFiles rejections name lastName = .validationError) := by
  refine ⟨?_, ?_, ?_⟩
  · intro fs hupload
    rw [handleDrop] at hupload
    by_cases hempty : acceptedFiles.isEmpty
    · rw [if_pos hempty] at hupload; cases hupload
    · rw [if_neg hempty] at hupload
      by_cases hrej : rejections.isEmpty
      · rw [hrej] at hupload
        simp only [Bool.not_true, Bool.false_eq_true, if_false] at hupload
        by_cases hvalid : isFormValid name lastName
        · exact hvalid
        · rw [Bool.not_eq_true] at hvalid
          rw [hvalid] at hupload
          simp only [Bool.not_false, if_true] at hupload
          cases hupload
      · rw [Bool.not_eq_true] at hrej
        rw [hrej] at hupload
        simp only [Bool.not_false, if_true] at hupload
        cases hupload
  · rw [isFormValid]
    by_cases h1 : (jsTrim name).length < 2
    · simp only [h1, true_or, if_true]
      constructor
      · intro h; cases h
      · intro h; omega
    · by_cases h2 : (jsTrim lastName).length < 2
      · simp only [h1, h2, or_true, if_true]
        constructor
        · intro h; cases h
        · intro h; omega
      · have hne1 : jsTrim name ≠ "" := by
          intro h
          rw [h] at h1
          exact h1 (by decide)
        have hne2 : jsTrim lastName ≠ "" := by
          intro h
          rw [h] at h2
          exact h2 (by decide)
        rw [if_neg (by simp [h1, h2]), Bool.and_eq_true, noDigitsTest_eq,
          noDigitsTest_eq]
        constructor
        · rintro ⟨⟨-, ha⟩, -, hb⟩
          exact ⟨Nat.le_of_not_lt h1, Nat.le_of_not_lt h2, ha, hb⟩
        · rintro ⟨-, -, ha, hb⟩
          exact ⟨⟨hne1, ha⟩, hne2, hb⟩
  · intro hne hrej hinvalid
    rw [handleDrop, if_neg (by simpa [List.isEmpty_iff] using hne), hrej,
      hinvalid]
    rfl

/-- Witness for C10: a clean drop with a too-short first name triggers the
validation error, so no upload happens. -/
theorem c10_witness :
    handleDrop ["scan.pdf"] [] "A" "Smith" = DropAction.validationError :=
  (c10_upload_guard ["scan.pdf"] [] "A" "Smith").2.2 (by decide) rfl (by decide)
